import Mathlib

/-!
# Verification of the database-sync script (`src/models.js`)

A shallow embedding of the collection-sync orchestrator of `src/models.js`
into Lean 4, together with theorems settling the frozen claims about it.

The JavaScript program is single-threaded with cooperative scheduling:
"concurrency" means up to `N` external subprocesses or in-flight
asynchronous operations coordinated from one control thread.  We model the
asynchronous parts with a deterministic discrete-event semantics: each
deferred task has a fixed duration and a success flag; `Promise.race`
settles with the in-flight promise of least finish time (ties broken by
admission order, matching timer-registration order in the Node event
loop).  Pure parts of the program are translated directly.  Interactions
with the operating system and the databases (subprocess spawns, document
reads and writes, filesystem operations) are modelled as events in a
trace, with their outcomes supplied by an environment record.

The file is organized as definitions first, then theorems.
-/

namespace SyncScript

/-! ## Definitions

### Concurrency limiter (`executeInParallel`, src/models.js lines 199-218)

```js
async function executeInParallel(tasks, maxConcurrency = MAX_PARALLEL) {
  const results = [];
  const executing = [];
  for (const task of tasks) {
    const promise = task().then((result) => {
      executing.splice(executing.indexOf(promise), 1);
      return result;
    });
    results.push(promise);
    executing.push(promise);
    if (executing.length >= maxConcurrency) {
      await Promise.race(executing);
    }
  }
  return Promise.all(results);
}
```

A deferred task is modelled by its duration and whether it succeeds.  The
`executing` array is modelled as a list of `(finish time, success flag)`
pairs.  `Promise.race` settles with the entry of least finish time; if that
entry is a fulfilled promise its `.then` handler has already removed it
from `executing` by the time the `await` resumes; if it is a rejection the
`await` throws, aborting the admission loop (the rejected promise is never
removed by the handler).  `Promise.all(results)` at the end rejects iff
any task failed. -/

/-- A zero-argument deferred task: how long it runs and whether it
fulfills (`ok = true`) or rejects. -/
structure PTask where
  dur : Nat
  ok : Bool
deriving DecidableEq, Repr

/-- State of the admission loop of `executeInParallel`: current virtual
time, the `executing` array (finish time and success flag per in-flight
promise), whether an `await Promise.race` has rejected (which aborts the
loop), and the maximum length `executing` ever reached (the peak number of
tasks in flight). -/
structure LimState where
  time : Nat
  executing : List (Nat × Bool)
  failed : Bool
  peak : Nat
deriving Repr

/-- The promise `Promise.race` settles with: the entry of `executing` with
the least finish time, earliest admitted first on ties. -/
def pickWinner : List (Nat × Bool) → Option (Nat × Bool)
  | [] => none
  | e :: rest =>
    match pickWinner rest with
    | none => some e
    | some w => if e.1 ≤ w.1 then some e else some w

/-- One `await Promise.race(executing)`: time advances to the winner's
finish; a fulfilled winner has been removed from `executing` by its
`.then` handler; a rejected winner makes the `await` throw (`failed`),
and is not removed. -/
def raceStep (s : LimState) : LimState :=
  match pickWinner s.executing with
  | none => s
  | some w =>
    if w.2 then
      { s with time := max s.time w.1, executing := s.executing.erase w }
    else
      { s with time := max s.time w.1, failed := true }

/-- Starting a task inside the loop: `executing.push(promise)`, with the
promise's finish time fixed by the current time and the task's duration.
The running peak of `executing.length` is recorded. -/
def admitTask (s : LimState) (t : PTask) : LimState :=
  { s with executing := s.executing ++ [(s.time + t.dur, t.ok)],
           peak := max s.peak (s.executing.length + 1) }

/-- The `for (const task of tasks)` admission loop of `executeInParallel`:
each task is started (pushed onto `executing` with its finish time), and
whenever `executing.length >= maxConcurrency` the loop awaits
`Promise.race(executing)` before admitting the next task.  A rejected race
aborts the loop. -/
def limLoop (maxConcurrency : Nat) : List PTask → LimState → LimState
  | [], s => s
  | t :: rest, s =>
    if s.failed then s
    else if maxConcurrency ≤ s.executing.length + 1 then
      limLoop maxConcurrency rest (raceStep (admitTask s t))
    else
      limLoop maxConcurrency rest (admitTask s t)

/-- `executeInParallel tasks maxConcurrency` returns the overall outcome
(`true` = the returned promise fulfills) and the peak number of promises
simultaneously in `executing`.  If the admission loop aborted on a
rejected race the function rejects; otherwise it returns
`Promise.all(results)`, which fulfills iff every task fulfilled. -/
def executeInParallel (tasks : List PTask) (maxConcurrency : Nat) :
    Bool × Nat :=
  let s := limLoop maxConcurrency tasks ⟨0, [], false, 0⟩
  (if s.failed then false else tasks.all (fun t => t.ok), s.peak)

/-!
### Direct transfer path (`transferCollectionDirect`, src/models.js lines 380-425)

```js
async function transferCollectionDirect(sourceDb, targetDb, collectionName) {
  ...
  try {
    await targetCollection.drop();
  } catch (err) {
    // Collection might not exist, which is fine
  }
  let processedCount = 0;
  const totalCount = await sourceCollection.countDocuments();
  ...
  const cursor = sourceCollection.find({}).batchSize(BATCH_SIZE);
  let batch = [];
  for await (const doc of cursor) {
    batch.push(doc);
    if (batch.length >= BATCH_SIZE) {
      await targetCollection.insertMany(batch, { ordered: false });
      processedCount += batch.length;
      const progress = ((processedCount / totalCount) * 100).toFixed(1);
      process.stdout.write(...);
      batch = [];
    }
  }
  if (batch.length > 0) {
    await targetCollection.insertMany(batch, { ordered: false });
    processedCount += batch.length;
  }
  ...
}
```

Documents are abstract values; the source collection's cursor is modelled
by the list of its documents, and the destination collection by the list
of documents it holds.  The drop of the destination is modelled by its
outcome (`Except.ok` = dropped, `Except.error e` = the drop rejected with
error `e`); any rejection is caught by the empty `catch` block, so the
destination contents survive a failed drop.  The progress string
`(x).toFixed(1)` is modelled on the exact rational value as rounding
`x` to the nearest tenth, halves away from zero (the idealization of
JavaScript `Number.prototype.toFixed` over exact arithmetic; the values
reached in this development are not floating-point tie cases). -/

/-- Rational model of JavaScript `(x).toFixed(1)` for non-negative `x`:
round to one decimal place, half away from zero. -/
def toFixed1 (q : ℚ) : ℚ := ((⌊q * 10 + 1 / 2⌋ : ℤ) : ℚ) / 10

/-- Truncation (not rounding) of a non-negative rational to one decimal
place; what the spec text asserts `toFixed(1)` computes. -/
def trunc1 (q : ℚ) : ℚ := ((⌊q * 10⌋ : ℤ) : ℚ) / 10

/-- Observable result of one `transferCollectionDirect` call: the
`insertMany` calls issued in order, the final `processedCount`, the
progress percentages written to stdout, and the final contents of the
destination collection. -/
structure TransferResult (α : Type) where
  inserts : List (List α)
  processed : Nat
  progressLog : List ℚ
  dest : List α

/-- The `for await (const doc of cursor)` loop of
`transferCollectionDirect`: accumulate documents into `batch`; once
`batch.length >= BATCH_SIZE`, issue an `insertMany`, add the batch to
`processedCount`, and emit the progress percentage.  Returns the inserts
issued, the processed count, the leftover batch and the progress log. -/
def directLoop {α : Type} (B total : Nat) :
    List α → List α → List (List α) → Nat → List ℚ →
      List (List α) × Nat × List α × List ℚ
  | [], batch, inserts, processed, plog => (inserts, processed, batch, plog)
  | d :: rest, batch, inserts, processed, plog =>
    if B ≤ (batch ++ [d]).length then
      directLoop B total rest [] (inserts ++ [batch ++ [d]])
        (processed + (batch ++ [d]).length)
        (plog ++ [toFixed1
          ((((processed + (batch ++ [d]).length : Nat)) : ℚ) / (total : ℚ) * 100)])
    else
      directLoop B total rest (batch ++ [d]) inserts processed plog

/-- The tail of `transferCollectionDirect` after the cursor loop: flush
the remaining partial batch (`if (batch.length > 0) insertMany(batch)`,
with no progress write) and assemble the observable result, the
destination holding what survived the drop followed by every inserted
document. -/
def finishTransfer {α : Type} (destAfterDrop : List α)
    (r : List (List α) × Nat × List α × List ℚ) : TransferResult α :=
  if 0 < r.2.2.1.length then
    ⟨r.1 ++ [r.2.2.1], r.2.1 + r.2.2.1.length, r.2.2.2,
      destAfterDrop ++ (r.1 ++ [r.2.2.1]).flatten⟩
  else
    ⟨r.1, r.2.1, r.2.2.2, destAfterDrop ++ r.1.flatten⟩

/-- `transferCollectionDirect` for one collection: try to drop the
destination (swallowing any error), count the source documents once
(`totalCount`, never re-queried), run the batching loop, and flush the
remainder. -/
def transferCollectionDirect {α : Type} (B : Nat)
    (dropResult : Except String Unit) (priorDest : List α)
    (docs : List α) : TransferResult α :=
  finishTransfer
    (match dropResult with
     | .ok _ => []
     | .error _ => priorDest)
    (directLoop B docs.length docs [] [] 0 [])

/-!
### Command runner (`executeCommand` lines 102-137,
`executeCommandWithProgress` lines 140-196)

Both runners delegate to Node's `child_process.exec` with the `timeout`
option.  Its documented semantics: when the timeout elapses before the
child exits, the child is killed with `SIGTERM`; the callback error then
has `killed: true`, `signal: 'SIGTERM'` and a `null` exit code, and the
`'close'` event fires with `code === null`.  A child that exits on its own
with a non-zero code produces an error with `killed: false` and
`code` set to the exit code, and `'close'` fires with that code.  The
observable behaviour of the wrapped subprocess is modelled by how long it
would run and how it would exit. -/

/-- Behaviour of the external process a command would start: how many
milliseconds it runs before exiting on its own, its exit code, and its
output streams. -/
structure ExecBehavior where
  duration : Nat
  exitCode : Nat
  stdout : String
  stderr : String
deriving DecidableEq, Repr

/-- The error object `child_process.exec` passes to its callback. -/
structure JsExecError where
  message : String
  killed : Bool
  signal : Option String
  code : Option Nat
deriving DecidableEq, Repr

/-- Node's `exec(command, { timeout })` (documented semantics): if the
timeout elapses first, the child is killed with `SIGTERM` and the error
has `killed = true` and no exit code; otherwise a zero exit succeeds and
a non-zero exit yields an error carrying the exit code. -/
def execSem (b : ExecBehavior) (timeoutMs : Nat) :
    Except JsExecError (String × String) :=
  if timeoutMs < b.duration then
    Except.error ⟨"Command killed", true, some "SIGTERM", none⟩
  else if b.exitCode = 0 then
    Except.ok (b.stdout, b.stderr)
  else
    Except.error ⟨"Command failed", false, none, some b.exitCode⟩

/-- `executeCommand` (src/models.js lines 102-137): awaits the promisified
`exec`; on success returns the captured streams, on failure logs (the
`error.code === "TIMEOUT"` branch affects the log line only) and rethrows
the library error unchanged. -/
def executeCommand (b : ExecBehavior) (timeoutMs : Nat) :
    Except JsExecError (String × String) :=
  match execSem b timeoutMs with
  | Except.ok r => Except.ok r
  | Except.error e => Except.error e

/-- The `(code, signal)` pair delivered to the `'close'` handler of the
child started by `exec` with a timeout: `code` is `null` when the child
was killed (timeout), else the child's exit code. -/
def closeEvent (b : ExecBehavior) (timeoutMs : Nat) :
    Option Nat × Option String :=
  if timeoutMs < b.duration then (none, some "SIGTERM")
  else (some b.exitCode, none)

/-- JavaScript string interpolation of the nullable close code
(`null` prints as "null"). -/
def codeString (c : Option Nat) : String :=
  match c with
  | none => "null"
  | some n => Nat.repr n

/-- `executeCommandWithProgress` (src/models.js lines 140-196): the
`'close'` handler resolves with the accumulated streams when
`code === 0`, otherwise rejects with
`new Error("Command failed with exit code " + code)`. -/
def executeCommandWithProgress (b : ExecBehavior) (timeoutMs : Nat) :
    Except String (String × String) :=
  if (closeEvent b timeoutMs).1 = some 0 then Except.ok (b.stdout, b.stderr)
  else
    Except.error ("Command failed with exit code " ++
      codeString (closeEvent b timeoutMs).1)

/-!
### Configuration parsing (src/models.js lines 22-29)

```js
const MAX_PARALLEL = parseInt(process.env.MAX_PARALLEL) || 3;
const BATCH_SIZE = parseInt(process.env.BATCH_SIZE) || 1000;
```

`process.env.X` is `undefined` when unset, which `parseInt` coerces to
the string "undefined".  `parseInt` (radix unspecified) skips leading
whitespace, accepts an optional sign, honours a `0x`/`0X` hexadecimal
prefix, and reads the longest digit prefix, yielding `NaN` when no digit
is read.  `NaN || d` and `0 || d` both evaluate to `d` (both are falsy).
`NaN` is modelled as `none`. -/

/-- Decimal digit test. -/
def isDecDigit (c : Char) : Bool := '0' ≤ c && c ≤ '9'

/-- Decimal digit value. -/
def decDigitVal (c : Char) : Nat := c.toNat - '0'.toNat

/-- Hexadecimal digit test. -/
def isHexDigit (c : Char) : Bool :=
  ('0' ≤ c && c ≤ '9') || ('a' ≤ c && c ≤ 'f') || ('A' ≤ c && c ≤ 'F')

/-- Hexadecimal digit value. -/
def hexDigitVal (c : Char) : Nat :=
  if '0' ≤ c && c ≤ '9' then c.toNat - '0'.toNat
  else if 'a' ≤ c && c ≤ 'f' then c.toNat - 'a'.toNat + 10
  else c.toNat - 'A'.toNat + 10

/-- Longest digit-prefix accumulator. -/
def parseDigits (isD : Char → Bool) (val : Char → Nat) (base : Nat) :
    List Char → Nat → Nat
  | [], acc => acc
  | c :: rest, acc =>
    if isD c then parseDigits isD val base rest (acc * base + val c)
    else acc

/-- Skip the leading whitespace `parseInt` ignores. -/
def skipWs : List Char → List Char
  | [] => []
  | c :: rest =>
    if c = ' ' || c = '\t' || c = '\n' || c = '\r' then skipWs rest
    else c :: rest

/-- The digit-prefix part of `parseInt` after sign handling: a `0x`/`0X`
prefix selects base 16; at least one digit must follow or the result is
`NaN` (`none`). -/
def parseAfterSign : List Char → Option Nat
  | '0' :: 'x' :: c :: rest =>
    if isHexDigit c then
      some (parseDigits isHexDigit hexDigitVal 16 rest (hexDigitVal c))
    else none
  | '0' :: 'X' :: c :: rest =>
    if isHexDigit c then
      some (parseDigits isHexDigit hexDigitVal 16 rest (hexDigitVal c))
    else none
  | ['0', 'x'] => none
  | ['0', 'X'] => none
  | c :: rest =>
    if isDecDigit c then
      some (parseDigits isDecDigit decDigitVal 10 rest (decDigitVal c))
    else none
  | [] => none

/-- `String(x)` for a possibly-undefined environment variable. -/
def jsToString : Option String → String
  | none => "undefined"
  | some str => str

/-- JavaScript `parseInt(x)` on an environment variable (`none` models
`NaN`). -/
def jsParseInt (s : Option String) : Option Int :=
  match skipWs (jsToString s).toList with
  | '-' :: cs => (parseAfterSign cs).map (fun n => -(n : Int))
  | '+' :: cs => (parseAfterSign cs).map (fun n => (n : Int))
  | cs => (parseAfterSign cs).map (fun n => (n : Int))

/-- `parseInt(x) || dflt`: `NaN` and `0` are falsy, so both fall back to
the default. -/
def parseIntOrDefault (s : Option String) (dflt : Int) : Int :=
  match jsParseInt s with
  | none => dflt
  | some n => if n = 0 then dflt else n

/-- `const MAX_PARALLEL = parseInt(process.env.MAX_PARALLEL) || 3`. -/
def maxParallelConfig (envVar : Option String) : Int :=
  parseIntOrDefault envVar 3

/-- `const BATCH_SIZE = parseInt(process.env.BATCH_SIZE) || 1000`. -/
def batchSizeConfig (envVar : Option String) : Int :=
  parseIntOrDefault envVar 1000

/-!
### Orchestrator (`main`, `validateConfig`, phases; src/models.js lines 59-683)

The orchestrator's externally visible behaviour is a trace of events plus
a process exit code.  Outcomes of the environment-dependent steps
(URI parsing, driver availability, subprocess successes, per-collection
verification counts, cleanup success) are supplied by an `Env` record.
Control flow uses `Ctl`: a step either completes normally, throws a
JavaScript error carrying a message, or calls `process.exit(code)`.
`process.exit` terminates the Node process immediately: neither `catch`
nor `finally` blocks run after it. -/

/-- Trace events: logs and external actions of one run. -/
inductive Event where
  | logMissingVars (vars : List String)
  | configValidated (sourceDB targetDB : String)
  | directStart
  | dbConnect
  | directDone
  | moduleNotFoundNotice
  | fallbackNotice
  | setupTempDir
  | spawn (cmd : String)
  | verifyCountLog (collection : String)
  | verifyWarnLog (collection : String)
  | cleanupStart
  | cleanupWarnLog
  | errorLog (message : String)
  | doneLog
deriving DecidableEq, Repr

/-- Whether an event reaches outside the process: a subprocess spawn or a
database connection (everything else is console logging). -/
def Event.isExternal : Event → Bool
  | .spawn _ => true
  | .dbConnect => true
  | _ => false

/-- How a step of the script finishes: normal completion, a thrown
JavaScript error (carrying `error.message`), or `process.exit(code)`
(immediate process termination, skipping `catch` and `finally`). -/
inductive Ctl (α : Type) where
  | normal (a : α)
  | thrown (message : String)
  | exited (code : Nat)
deriving DecidableEq, Repr

/-- Environment of one run: configuration values and the outcomes of the
steps that depend on the outside world. -/
structure Env where
  remoteUri : Option String
  localUri : Option String
  skipVerification : Bool
  useParallel : Bool
  useDirectTransfer : Bool
  driverAvailable : Bool
  directOk : Bool
  dumpOk : Bool
  restoreOk : Bool
  verifyOk : String → Bool
  cleanupOk : Bool
  parseDbName : String → Option String

/-- The fixed `COLLECTIONS_TO_SYNC` list (src/models.js lines 32-40). -/
def collectionsToSync : List String :=
  ["contents", "shows", "episodes", "raw-media", "VisionularTranscoding",
    "adminusers", "cmsusers"]

/-- JavaScript falsiness of an optional string (`undefined` and `""` are
falsy), as used by `if (!REMOTE_URI)`. -/
def falsyStr : Option String → Bool
  | none => true
  | some s => s = ""

/-- The `missingVars` array built by `validateConfig`
(src/models.js lines 74-76). -/
def missingVarsList (env : Env) : List String :=
  (if falsyStr env.remoteUri then ["REMOTE_URI"] else []) ++
    (if falsyStr env.localUri then ["LOCAL_URI"] else [])

/-- The string value of a set environment variable (`""` if absent; only
reached when the falsiness check passed). -/
def uriStr : Option String → String
  | none => ""
  | some s => s

/-- `validateConfig` (src/models.js lines 71-99): log and
`process.exit(1)` when either connection string is missing, otherwise
extract a database name from each URI (`extractDatabaseFromURI` throws on
an unparsable URI). -/
def validateConfig (env : Env) : List Event × Ctl (String × String) :=
  if 0 < (missingVarsList env).length then
    ([Event.logMissingVars (missingVarsList env)], Ctl.exited 1)
  else
    match env.parseDbName (uriStr env.remoteUri),
        env.parseDbName (uriStr env.localUri) with
    | some s, some t => ([Event.configValidated s t], Ctl.normal (s, t))
    | none, _ =>
      ([], Ctl.thrown ("Invalid MongoDB URI: " ++ uriStr env.remoteUri))
    | some _, none =>
      ([], Ctl.thrown ("Invalid MongoDB URI: " ++ uriStr env.localUri))

/-- `directDatabaseTransfer` (src/models.js lines 330-377): `require`
the driver inside `try`; a missing module logs a notice and throws the
sentinel error `"FALLBACK_TO_TRADITIONAL"`; any other error from the
per-collection transfer loop (whose per-collection behaviour is verified
separately as `transferCollectionDirect`) is rethrown unchanged. -/
def directDatabaseTransfer (env : Env) : List Event × Ctl Unit :=
  if env.driverAvailable = false then
    ([Event.directStart, Event.moduleNotFoundNotice],
      Ctl.thrown "FALLBACK_TO_TRADITIONAL")
  else if env.directOk then
    ([Event.directStart, Event.dbConnect, Event.directDone], Ctl.normal ())
  else
    ([Event.directStart, Event.dbConnect], Ctl.thrown "DIRECT_TRANSFER_ERROR")

/-- One `mongodump` invocation per collection (the parallel and
sequential variants differ only in scheduling, which is modelled by
`executeInParallel`; the command string is abbreviated to its
discriminating parts). -/
def dumpEvents (cols : List String) : List Event :=
  cols.map (fun c => Event.spawn ("mongodump --collection=" ++ c))

/-- The dump phase (`dumpSpecificCollectionsParallel` lines 221-240 /
`dumpSpecificCollections` lines 428-460): on failure the first failing
dump's error propagates (fail-fast, no retry). -/
def dumpPhase (env : Env) : List Event × Ctl Unit :=
  if env.dumpOk then (dumpEvents collectionsToSync, Ctl.normal ())
  else (dumpEvents (collectionsToSync.take 1), Ctl.thrown "DUMP_FAILED")

/-- One `mongorestore --drop` invocation per collection. -/
def restoreEvents (cols : List String) : List Event :=
  cols.map (fun c => Event.spawn ("mongorestore --drop --collection=" ++ c))

/-- The restore phase (`restoreSpecificCollectionsParallel` lines 266-291 /
`restoreSpecificCollections` lines 463-496). -/
def restorePhase (env : Env) : List Event × Ctl Unit :=
  if env.restoreOk then (restoreEvents collectionsToSync, Ctl.normal ())
  else (restoreEvents (collectionsToSync.take 1), Ctl.thrown "RESTORE_FAILED")

/-- The `mongosh ... countDocuments()` command run by the verifier for one
collection (a read-only count, abbreviated to its discriminating parts). -/
def countCmd (c : String) : String :=
  "mongosh --eval countDocuments " ++ c

/-- The `for (const collection of COLLECTIONS_TO_SYNC)` loop of
`verifySpecificCollections` (src/models.js lines 539-557): each iteration
runs the count command and logs the count; the per-iteration `catch` logs
a warning and the loop continues. -/
def verifyLoop (env : Env) : List String → List Event
  | [] => []
  | c :: rest =>
    (Event.spawn (countCmd c) ::
        (if env.verifyOk c then [Event.verifyCountLog c]
         else [Event.verifyWarnLog c])) ++
      verifyLoop env rest

/-- `verifySpecificCollections`: the loop over the fixed collection list;
it always completes normally because every count failure is caught and
only warned about. -/
def verifySpecificCollections (env : Env) : List Event × Ctl Unit :=
  (verifyLoop env collectionsToSync, Ctl.normal ())

/-- Step 3 of `main`: verification unless `SKIP_VERIFICATION`. -/
def verifyStage (env : Env) : List Event :=
  if env.skipVerification then []
  else (verifySpecificCollections env).1

/-- `cleanupTempDirectory` (src/models.js lines 522-536): `fs.rm` the
temp directory; its own `catch` only logs a warning, so cleanup never
throws (the return type carries no `Ctl`). -/
def cleanupTempDirectory (env : Env) : List Event :=
  if env.cleanupOk then [Event.cleanupStart]
  else [Event.cleanupStart, Event.cleanupWarnLog]

/-- Result of the `try` block of `main`: its trace, how it finished, and
whether `tempDir` was assigned (which the `finally` block tests). -/
structure BodyResult where
  trace : List Event
  ctl : Ctl Unit
  tempDirCreated : Bool
deriving Repr

/-- The traditional path inside `main`'s `try`: `setupTempDirectory`
(assigning `tempDir`), then the dump phase, then the restore phase
(parallel or sequential per `USE_PARALLEL`; same per-collection
invocations either way). -/
def runTraditional (env : Env) : List Event × Ctl Unit :=
  match dumpPhase env with
  | (ev, Ctl.normal _) =>
    match restorePhase env with
    | (ev2, c2) => (Event.setupTempDir :: (ev ++ ev2), c2)
  | (ev, c) => (Event.setupTempDir :: ev, c)

/-- The tail of `main`'s `try` block after a successful transfer:
optional verification, then the success summary logs. -/
def afterTransfer (env : Env) (acc : List Event) (tempCreated : Bool) :
    BodyResult :=
  ⟨acc ++ verifyStage env ++ [Event.doneLog], Ctl.normal (), tempCreated⟩

/-- The traditional branch of `main`'s `try` block followed by its tail. -/
def traditionalThen (env : Env) (acc : List Event) : BodyResult :=
  match runTraditional env with
  | (ev, Ctl.normal _) => afterTransfer env (acc ++ ev) true
  | (ev, c) => ⟨acc ++ ev, c, true⟩

/-- The `try` block of `main` (src/models.js lines 566-654): validate,
then direct transfer when `USE_DIRECT_TRANSFER` (falling back to the
traditional path exactly when the sentinel `"FALLBACK_TO_TRADITIONAL"`
is caught, logging the fallback notice), else the traditional path;
then optional verification and the summary logs. -/
def tryBody (env : Env) : BodyResult :=
  match validateConfig env with
  | (ev, Ctl.exited c) => ⟨ev, Ctl.exited c, false⟩
  | (ev, Ctl.thrown m) => ⟨ev, Ctl.thrown m, false⟩
  | (ev, Ctl.normal _) =>
    if env.useDirectTransfer then
      match directDatabaseTransfer env with
      | (ev2, Ctl.normal _) => afterTransfer env (ev ++ ev2) false
      | (ev2, Ctl.thrown m) =>
        if m = "FALLBACK_TO_TRADITIONAL" then
          traditionalThen env (ev ++ ev2 ++ [Event.fallbackNotice])
        else ⟨ev ++ ev2, Ctl.thrown m, false⟩
      | (ev2, Ctl.exited c) => ⟨ev ++ ev2, Ctl.exited c, false⟩
    else
      traditionalThen env ev

/-- `main` (src/models.js lines 560-683): run the `try` block; the
`catch` block logs the error and calls `process.exit(1)` — which
terminates Node immediately, so the `finally` block does NOT run on the
failure path; a `process.exit` inside the `try` (from `validateConfig`)
likewise skips `finally`.  Only when the `try` block completes normally
does `finally` run: cleanup if `tempDir` was assigned, the finish logs,
and `process.exit(0)`. -/
def main (env : Env) : List Event × Nat :=
  match tryBody env with
  | ⟨trace, Ctl.exited c, _⟩ => (trace, c)
  | ⟨trace, Ctl.thrown m, _⟩ => (trace ++ [Event.errorLog m], 1)
  | ⟨trace, Ctl.normal _, tempCreated⟩ =>
    ((trace ++ (if tempCreated then cleanupTempDirectory env else [])) ++
      [Event.doneLog], 0)

/-- A fully healthy environment, used as the base of the concrete runs. -/
def envBase : Env :=
  { remoteUri := some "mongodb://remote:27017/sourcedb"
    localUri := some "mongodb://localhost:27017/targetdb"
    skipVerification := false
    useParallel := true
    useDirectTransfer := false
    driverAvailable := true
    directOk := true
    dumpOk := true
    restoreOk := true
    verifyOk := fun _ => true
    cleanupOk := true
    parseDbName := fun u => some u }

/-- A run whose dump phase fails (e.g. `mongodump` exits non-zero) after
the temp directory was set up. -/
def envDumpFails : Env := { envBase with dumpOk := false }

/-- A run with `USE_DIRECT_TRANSFER=true` but no `mongodb` driver
installed, and a healthy traditional path. -/
def envNoDriver : Env :=
  { envBase with useDirectTransfer := true, driverAvailable := false }

/-- A run with `REMOTE_URI` unset. -/
def envMissingRemote : Env := { envBase with remoteUri := none }

/-- A run in which counting the `shows` collection fails during
verification while the other counts succeed. -/
def envVerifyMixed : Env :=
  { envBase with verifyOk := fun c => !(c == "shows") }

/-- A run in which removing the temp directory fails during cleanup. -/
def envCleanupFails : Env := { envBase with cleanupOk := false }

/-! ## Theorems -/

theorem pickWinner_mem {l : List (Nat × Bool)} {w : Nat × Bool}
    (h : pickWinner l = some w) : w ∈ l := by
  induction l with
  | nil => simp [pickWinner] at h
  | cons e rest ih =>
    simp only [pickWinner] at h
    cases hrest : pickWinner rest with
    | none => rw [hrest] at h; simp at h; simp [h]
    | some w' =>
      rw [hrest] at h
      by_cases hle : e.1 ≤ w'.1
      · simp [hle] at h; simp [h]
      · simp [hle] at h
        subst h
        exact List.mem_cons_of_mem _ (ih hrest)

theorem pickWinner_eq_none {l : List (Nat × Bool)} :
    pickWinner l = none ↔ l = [] := by
  induction l with
  | nil => simp [pickWinner]
  | cons e rest ih =>
    simp only [pickWinner]
    cases hrest : pickWinner rest with
    | none => simp
    | some w => by_cases hle : e.1 ≤ w.1 <;> simp [hle]

theorem raceStep_peak (s : LimState) : (raceStep s).peak = s.peak := by
  unfold raceStep
  cases h : pickWinner s.executing with
  | none => rfl
  | some w => by_cases hw : w.2 <;> simp [hw]

theorem raceStep_length_or_failed (s : LimState)
    (hne : s.executing ≠ []) :
    (raceStep s).executing.length + 1 = s.executing.length ∨
      (raceStep s).failed = true := by
  unfold raceStep
  cases h : pickWinner s.executing with
  | none => exact absurd (pickWinner_eq_none.mp h) hne
  | some w =>
    by_cases hw : w.2
    · left
      simp only [hw, if_true]
      have hmem := pickWinner_mem h
      have hlen := List.length_erase_of_mem hmem
      simp only [hlen]
      have : 1 ≤ s.executing.length := List.length_pos.mpr hne
      omega
    · right; simp [hw]

/-- Invariant used for the in-flight bound: the peak never exceeded `N`,
and either the loop has aborted or fewer than `N` promises are in
`executing`. -/
def LimInv (N : Nat) (s : LimState) : Prop :=
  s.peak ≤ N ∧ (s.failed = true ∨ s.executing.length < N)

theorem limLoop_peak_le (N : Nat) (tasks : List PTask) (s : LimState)
    (h : LimInv N s) : (limLoop N tasks s).peak ≤ N := by
  induction tasks generalizing s with
  | nil => exact h.1
  | cons t rest ih =>
    rw [limLoop]
    by_cases hf : s.failed = true
    · simp only [hf, if_true]; exact h.1
    · have hf' : s.failed = false := by simpa using hf
      rcases h with ⟨hpeak, hlen⟩
      have hlen' : s.executing.length < N := by
        rcases hlen with h1 | h1
        · rw [hf'] at h1; cases h1
        · exact h1
      simp only [hf', Bool.false_eq_true, if_false]
      by_cases hc : N ≤ s.executing.length + 1
      · rw [if_pos hc]
        apply ih
        have hN : s.executing.length + 1 = N := by omega
        constructor
        · rw [raceStep_peak]
          simp only [admitTask]
          exact max_le hpeak (by omega)
        · have hne : (admitTask s t).executing ≠ [] := by
            simp [admitTask]
          rcases raceStep_length_or_failed (admitTask s t) hne with h2 | h2
          · right
            have : (admitTask s t).executing.length =
                s.executing.length + 1 := by simp [admitTask]
            omega
          · left; exact h2
      · rw [if_neg hc]
        apply ih
        constructor
        · simp only [admitTask]
          exact max_le hpeak (by omega)
        · right
          simp only [admitTask, List.length_append, List.length_cons,
            List.length_nil]
          omega

theorem raceStep_all_ok {s : LimState}
    (hex : ∀ e ∈ s.executing, e.2 = true) :
    (raceStep s).failed = s.failed ∧
      ∀ e ∈ (raceStep s).executing, e.2 = true := by
  unfold raceStep
  cases h : pickWinner s.executing with
  | none => exact ⟨rfl, hex⟩
  | some w =>
    have hw : w.2 = true := hex w (pickWinner_mem h)
    simp only [hw, if_true]
    exact ⟨by trivial, fun e he => hex e (List.mem_of_mem_erase he)⟩

theorem limLoop_not_failed (N : Nat) (tasks : List PTask) (s : LimState)
    (hf : s.failed = false) (hex : ∀ e ∈ s.executing, e.2 = true)
    (hts : ∀ t ∈ tasks, t.ok = true) :
    (limLoop N tasks s).failed = false := by
  induction tasks generalizing s with
  | nil => exact hf
  | cons t rest ih =>
    rw [limLoop]
    simp only [hf, Bool.false_eq_true, if_false]
    have hadmex : ∀ e ∈ (admitTask s t).executing, e.2 = true := by
      intro e he
      simp only [admitTask, List.mem_append, List.mem_singleton] at he
      rcases he with he | he
      · exact hex e he
      · rw [he]; exact hts t (List.mem_cons_self t rest)
    have hadmf : (admitTask s t).failed = false := hf
    have hrest : ∀ u ∈ rest, u.ok = true :=
      fun u hu => hts u (List.mem_cons_of_mem t hu)
    by_cases hc : N ≤ s.executing.length + 1
    · rw [if_pos hc]
      rcases raceStep_all_ok hadmex with ⟨h1, h2⟩
      exact ih _ (h1.trans hadmf) h2 hrest
    · rw [if_neg hc]
      exact ih _ hadmf hadmex hrest

/-- C1: for every list of deferred tasks of length `L` and every
concurrency cap `N` with `1 ≤ N ≤ L`, `executeInParallel` never has more
than `N` tasks in flight at any instant (the peak size of the `executing`
working set, which bounds the number of unfinished admitted tasks, never
exceeds `N`; a finishing task is removed from the working set and the
next task admitted immediately — sliding-window admission), and the
returned promise fulfills iff every task fulfills. -/
theorem executeInParallel_bounded_and_allOk (tasks : List PTask) (N : Nat)
    (h1 : 1 ≤ N) (h2 : N ≤ tasks.length) :
    (executeInParallel tasks N).2 ≤ N ∧
      ((executeInParallel tasks N).1 = true ↔ ∀ t ∈ tasks, t.ok = true) := by
  constructor
  · exact limLoop_peak_le N tasks ⟨0, [], false, 0⟩
      ⟨Nat.zero_le _, Or.inr (by simpa using h1)⟩
  · unfold executeInParallel
    simp only
    constructor
    · intro hres
      by_cases hfail : (limLoop N tasks ⟨0, [], false, 0⟩).failed = true
      · rw [if_pos hfail] at hres; cases hres
      · rw [if_neg hfail] at hres
        exact fun t ht => List.all_eq_true.mp hres t ht
    · intro hall
      have hnf := limLoop_not_failed N tasks ⟨0, [], false, 0⟩ rfl
        (by intro e he; cases he) hall
      rw [if_neg (by rw [hnf]; exact Bool.false_ne_true)]
      exact List.all_eq_true.mpr hall

/-- Witness for C1 at a concrete input: three tasks, cap 2. -/
theorem executeInParallel_bounded_and_allOk_witness :
    (executeInParallel [⟨5, true⟩, ⟨2, true⟩, ⟨4, true⟩] 2).2 ≤ 2 ∧
      ((executeInParallel [⟨5, true⟩, ⟨2, true⟩, ⟨4, true⟩] 2).1 = true ↔
        ∀ t ∈ [(⟨5, true⟩ : PTask), ⟨2, true⟩, ⟨4, true⟩], t.ok = true) :=
  executeInParallel_bounded_and_allOk [⟨5, true⟩, ⟨2, true⟩, ⟨4, true⟩] 2
    (by decide) (by decide)

/-- Characterization of the batching loop, generalized over a partially
filled batch and accumulators. -/
theorem directLoop_spec {α : Type} (B total : Nat) (hB : 0 < B)
    (docs : List α) (batch : List α) (inserts : List (List α))
    (processed : Nat) (plog : List ℚ) (hc : batch.length < B) :
    (directLoop B total docs batch inserts processed plog).1.length =
        inserts.length + (batch.length + docs.length) / B ∧
      (directLoop B total docs batch inserts processed plog).2.1 =
        processed + B * ((batch.length + docs.length) / B) ∧
      (directLoop B total docs batch inserts processed plog).2.2.1.length =
        (batch.length + docs.length) % B ∧
      (directLoop B total docs batch inserts processed plog).2.2.2 =
        plog ++ (List.range ((batch.length + docs.length) / B)).map
          (fun k => toFixed1
            (((processed + B * (k + 1) : Nat) : ℚ) / (total : ℚ) * 100)) ∧
      (directLoop B total docs batch inserts processed plog).1.flatten ++
          (directLoop B total docs batch inserts processed plog).2.2.1 =
        inserts.flatten ++ batch ++ docs := by
  induction docs generalizing batch inserts processed plog with
  | nil =>
    simp only [directLoop, List.length_nil, Nat.add_zero]
    refine ⟨?_, ?_, ?_, ?_, ?_⟩
    · rw [Nat.div_eq_of_lt hc]
      omega
    · rw [Nat.div_eq_of_lt hc, Nat.mul_zero, Nat.add_zero]
    · rw [Nat.mod_eq_of_lt hc]
    · rw [Nat.div_eq_of_lt hc]; simp
    · simp
  | cons d rest ih =>
    rw [directLoop]
    by_cases hfull : B ≤ (batch ++ [d]).length
    · rw [if_pos hfull]
      have hlen : (batch ++ [d]).length = batch.length + 1 := by simp
      have hBeq : batch.length + 1 = B := by omega
      have h0 : (0 : Nat) < B := hB
      obtain ⟨ih1, ih2, ih3, ih4, ih5⟩ :=
        ih [] (inserts ++ [batch ++ [d]])
          (processed + (batch ++ [d]).length)
          (plog ++ [toFixed1
            ((((processed + (batch ++ [d]).length : Nat)) : ℚ) /
              (total : ℚ) * 100)])
          (by simpa using hB)
      have harith : batch.length + (d :: rest).length =
          rest.length + B := by
        simp only [List.length_cons]; omega
      refine ⟨?_, ?_, ?_, ?_, ?_⟩
      · rw [ih1, harith, Nat.add_div_right _ h0]
        simp; omega
      · rw [ih2, harith, Nat.add_div_right _ h0]
        simp only [List.length_nil, Nat.zero_add, hlen, hBeq]
        ring
      · rw [ih3, harith, Nat.add_mod_right]
        simp
      · rw [ih4, harith, Nat.add_div_right _ h0]
        rw [List.range_succ_eq_map, List.map_cons, List.map_map]
        simp only [List.length_nil, Nat.zero_add, hlen, hBeq,
          List.append_assoc, List.singleton_append]
        congr 2
        · congr 1
          push_cast
          ring
        · apply List.map_congr_left
          intro k _
          congr 2
          push_cast
          ring
      · rw [ih5]
        simp
    · rw [if_neg hfull]
      have hlen : (batch ++ [d]).length = batch.length + 1 := by simp
      have hlt : batch.length + 1 < B := by omega
      obtain ⟨ih1, ih2, ih3, ih4, ih5⟩ :=
        ih (batch ++ [d]) inserts processed plog (by omega)
      have harith : (batch ++ [d]).length + rest.length =
          batch.length + (d :: rest).length := by
        simp only [List.length_cons, hlen]; omega
      refine ⟨?_, ?_, ?_, ?_, ?_⟩
      · rw [ih1, harith]
      · rw [ih2, harith]
      · rw [ih3, harith]
      · rw [ih4, harith]
      · rw [ih5]
        simp

/-- Ceiling division expressed through floor division and the remainder. -/
theorem ceil_div_cases (n B : Nat) (hB : 0 < B) :
    (n + B - 1) / B = if n % B = 0 then n / B else n / B + 1 := by
  have hlt : n % B < B := Nat.mod_lt _ hB
  by_cases hr : n % B = 0
  · rw [if_pos hr]
    have hn : B * (n / B) = n := by
      have h0 := Nat.div_add_mod n B
      rw [hr, Nat.add_zero] at h0
      exact h0
    have h : n + B - 1 = B * (n / B) + (B - 1) := by rw [hn]; omega
    rw [h, Nat.mul_add_div hB,
      Nat.div_eq_of_lt (show B - 1 < B by omega), Nat.add_zero]
  · rw [if_neg hr]
    have h0 := Nat.div_add_mod n B
    have h : n + B - 1 = B * (n / B) + (n % B - 1 + B) := by
      generalize hq : B * (n / B) = t at h0
      omega
    rw [h, Nat.mul_add_div hB, Nat.add_div_right _ hB,
      Nat.div_eq_of_lt (show n % B - 1 < B by omega), Nat.zero_add]

/-- C3: for a source collection of `M` documents and batch size `B ≥ 1`,
`transferCollectionDirect` performs exactly `⌈M / B⌉ = (M + B - 1) / B`
`insertMany` calls and finishes with `processedCount = M`; when `M` is
not a multiple of `B` the final `insertMany` flushes the partial batch of
`M % B` documents (`M = 0` gives `(0 + B - 1) / B = 0` inserts). -/
theorem transferCollectionDirect_batching {α : Type} (B : Nat)
    (hB : 1 ≤ B) (dropResult : Except String Unit) (priorDest : List α)
    (docs : List α) :
    (transferCollectionDirect B dropResult priorDest docs).inserts.length =
        (docs.length + B - 1) / B ∧
      (transferCollectionDirect B dropResult priorDest docs).processed =
        docs.length ∧
      (docs.length % B ≠ 0 →
        ((transferCollectionDirect B dropResult priorDest
            docs).inserts.getLast?).map List.length =
          some (docs.length % B)) := by
  have hc0 : ([] : List α).length < B := by simpa using hB
  obtain ⟨h1, h2, h3, h4, h5⟩ :=
    directLoop_spec B docs.length hB docs [] [] 0 [] hc0
  simp only [List.length_nil, Nat.zero_add] at h1 h2 h3
  rw [transferCollectionDirect.eq_def]
  unfold finishTransfer
  rw [h3, ceil_div_cases docs.length B hB]
  by_cases hr : docs.length % B = 0
  · rw [if_neg (show ¬ 0 < docs.length % B by omega), if_pos hr]
    dsimp only
    refine ⟨h1, ?_, fun hcontra => absurd hr hcontra⟩
    rw [h2]
    have h0 := Nat.div_add_mod docs.length B
    rw [hr, Nat.add_zero] at h0
    exact h0
  · rw [if_pos (show 0 < docs.length % B by omega), if_neg hr]
    dsimp only
    refine ⟨?_, ?_, fun _ => ?_⟩
    · rw [List.length_append, h1, List.length_singleton]
    · rw [h2]
      exact Nat.div_add_mod docs.length B
    · rw [List.getLast?_concat]
      simpa using h3

/-- Witness for C3 at a concrete input: 5 documents, batch size 2
(2 full batches plus a remainder batch of 1). -/
theorem transferCollectionDirect_batching_witness :
    (transferCollectionDirect 2 (Except.ok ()) ([] : List Nat)
          [10, 11, 12, 13, 14]).inserts.length = (5 + 2 - 1) / 2 ∧
      (transferCollectionDirect 2 (Except.ok ()) ([] : List Nat)
          [10, 11, 12, 13, 14]).processed = 5 ∧
      (5 % 2 ≠ 0 →
        ((transferCollectionDirect 2 (Except.ok ()) ([] : List Nat)
            [10, 11, 12, 13, 14]).inserts.getLast?).map List.length =
          some (5 % 2)) := by
  have h := transferCollectionDirect_batching 2 (by decide)
    (Except.ok ()) ([] : List Nat) [10, 11, 12, 13, 14]
  simpa using h

/-- C8 (amended): every progress percentage emitted by the direct
transfer path equals `processedCount / totalCount × 100` rounded — not
truncated — to one decimal place (`toFixed(1)` rounds to the nearest
tenth), where the `k`-th emitted value has `processedCount = B * (k+1)`
and `totalCount` is the source document count taken once before the
batch loop (every emitted value divides by that same initial count). -/
theorem transferCollectionDirect_progress_rounded {α : Type} (B : Nat)
    (hB : 1 ≤ B) (dropResult : Except String Unit) (priorDest : List α)
    (docs : List α) :
    (transferCollectionDirect B dropResult priorDest docs).progressLog =
      (List.range (docs.length / B)).map (fun k =>
        toFixed1 (((B * (k + 1) : Nat) : ℚ) / (docs.length : ℚ) * 100)) := by
  have hc0 : ([] : List α).length < B := by simpa using hB
  obtain ⟨h1, h2, h3, h4, h5⟩ :=
    directLoop_spec B docs.length hB docs [] [] 0 [] hc0
  simp only [List.length_nil, Nat.zero_add, List.nil_append] at h4
  rw [transferCollectionDirect.eq_def]
  unfold finishTransfer
  by_cases hbatch :
      0 < (directLoop B docs.length docs [] [] 0 []).2.2.1.length
  · rw [if_pos hbatch]
    dsimp only
    exact h4
  · rw [if_neg hbatch]
    dsimp only
    exact h4

/-- Witness for the amended C8 at a concrete input: 5 documents, batch
size 2; the two full-batch flushes emit the rounded percentages for
2/5 and 4/5. -/
theorem transferCollectionDirect_progress_rounded_witness :
    (transferCollectionDirect 2 (Except.ok ()) ([] : List Nat)
        [10, 11, 12, 13, 14]).progressLog =
      (List.range (5 / 2)).map (fun k =>
        toFixed1 (((2 * (k + 1) : Nat) : ℚ) / ((5 : Nat) : ℚ) * 100)) := by
  have h := transferCollectionDirect_progress_rounded 2 (by decide)
    (Except.ok ()) ([] : List Nat) [10, 11, 12, 13, 14]
  simpa using h

/-- C8 counterexample: with batch size 2 and three source documents, the
flush at `processedCount = 2` of `totalCount = 3` emits
`((2 / 3) * 100).toFixed(1) = 66.7`, whereas truncation to one decimal
place gives `66.6` — `toFixed(1)` rounds, it does not truncate, so the
emitted percentage differs from the truncated value. -/
theorem transferCollectionDirect_progress_not_truncated :
    (transferCollectionDirect 2 (Except.ok ()) ([] : List Nat)
        [0, 1, 2]).progressLog = [(667 : ℚ) / 10] ∧
      trunc1 ((2 : ℚ) / 3 * 100) = (666 : ℚ) / 10 ∧
      ((667 : ℚ) / 10) ≠ ((666 : ℚ) / 10) := by
  refine ⟨?_, ?_, by norm_num⟩
  · have h := transferCollectionDirect_progress_rounded 2 (by decide)
      (Except.ok ()) ([] : List Nat) [0, 1, 2]
    rw [h]
    rw [show ([0, 1, 2] : List Nat).length = 3 from rfl,
      show (3 : Nat) / 2 = 1 from rfl,
      show List.range 1 = [0] from rfl]
    simp only [List.map_cons, List.map_nil]
    unfold toFixed1
    rw [show (((2 * (0 + 1) : Nat) : ℚ) / ((3 : Nat) : ℚ) * 100 * 10 +
        1 / 2) = 4003 / 6 by norm_num]
    rw [show ⌊(4003 : ℚ) / 6⌋ = 667 by rw [Int.floor_eq_iff] <;> norm_num]
    norm_num
  · unfold trunc1
    rw [show ((2 : ℚ) / 3 * 100 * 10) = 2000 / 3 by norm_num]
    rw [show ⌊(2000 : ℚ) / 3⌋ = 666 by rw [Int.floor_eq_iff] <;> norm_num]
    norm_num

/-- C10: any error from dropping the destination collection is swallowed
by the empty `catch` block — not only the collection-does-not-exist
case — so for an arbitrary drop failure `e` (e.g. an authorization
error) the transfer still proceeds, inserts every source document, and
the destination ends up with its prior contents still present, followed
by the transferred documents. -/
theorem transferCollectionDirect_drop_error_swallowed {α : Type}
    (B : Nat) (hB : 1 ≤ B) (e : String) (priorDest docs : List α) :
    (transferCollectionDirect B (Except.error e) priorDest docs).dest =
        priorDest ++ docs ∧
      (transferCollectionDirect B (Except.error e) priorDest
          docs).processed = docs.length := by
  have hc0 : ([] : List α).length < B := by simpa using hB
  obtain ⟨h1, h2, h3, h4, h5⟩ :=
    directLoop_spec B docs.length hB docs [] [] 0 [] hc0
  simp only [List.length_nil, Nat.zero_add] at h2 h3
  simp only [List.flatten_nil, List.nil_append] at h5
  rw [transferCollectionDirect.eq_def]
  unfold finishTransfer
  rw [h3]
  by_cases hr : docs.length % B = 0
  · rw [if_neg (show ¬ 0 < docs.length % B by omega)]
    dsimp only
    constructor
    · have hbatch :
          (directLoop B docs.length docs [] [] 0 []).2.2.1 = [] := by
        have := h3.trans hr
        exact List.eq_nil_of_length_eq_zero this
      rw [hbatch, List.append_nil] at h5
      rw [h5]
    · rw [h2]
      have h0 := Nat.div_add_mod docs.length B
      rw [hr, Nat.add_zero] at h0
      exact h0
  · rw [if_pos (show 0 < docs.length % B by omega)]
    dsimp only
    constructor
    · rw [List.flatten_append, List.flatten_cons, List.flatten_nil,
        List.append_nil, h5]
    · rw [h2]
      exact Nat.div_add_mod docs.length B

/-- Witness for C10 at a concrete input: batch size 3, a destination
that still holds `[7, 8]` because the drop failed with an authorization
error, and 4 source documents. -/
theorem transferCollectionDirect_drop_error_swallowed_witness :
    (transferCollectionDirect 3 (Except.error "not authorized on db")
          [7, 8] [1, 2, 3, 4]).dest = [7, 8] ++ [1, 2, 3, 4] ∧
      (transferCollectionDirect 3 (Except.error "not authorized on db")
          [7, 8] [1, 2, 3, 4]).processed = List.length [1, 2, 3, 4] :=
  transferCollectionDirect_drop_error_swallowed 3 (by decide)
    "not authorized on db" [7, 8] [1, 2, 3, 4]

theorem parseIntOrDefault_falsy (s : Option String) (dflt : Int)
    (h : s = none ∨ jsParseInt s = none ∨ jsParseInt s = some 0) :
    parseIntOrDefault s dflt = dflt := by
  rcases h with h | h | h
  · subst h
    have hu : jsParseInt none = none := by decide
    unfold parseIntOrDefault
    rw [hu]
  · unfold parseIntOrDefault
    rw [h]
  · unfold parseIntOrDefault
    rw [h]
    simp

/-- C9: whenever `MAX_PARALLEL` (resp. `BATCH_SIZE`) is unset, parses to
`NaN` (e.g. a non-numeric string), or parses to `0`, the effective
configuration silently falls back to the defaults 3 and 1000, because
`parseInt(x) || d` treats `NaN` and `0` as falsy; consequently an
effective concurrency cap of `0` can never be configured, for any
value of the variable. -/
theorem config_defaults_on_falsy_parse (s : Option String)
    (h : s = none ∨ jsParseInt s = none ∨ jsParseInt s = some 0) :
    maxParallelConfig s = 3 ∧ batchSizeConfig s = 1000 ∧
      ∀ v : Option String, maxParallelConfig v ≠ 0 := by
  refine ⟨parseIntOrDefault_falsy s 3 h, parseIntOrDefault_falsy s 1000 h, ?_⟩
  intro v
  unfold maxParallelConfig parseIntOrDefault
  cases hv : jsParseInt v with
  | none => simp
  | some n =>
    by_cases hn : n = 0
    · simp [hn]
    · simp [hn]

/-- Witness for C9 at the concrete input `MAX_PARALLEL="0"`. -/
theorem config_defaults_on_falsy_parse_witness :
    maxParallelConfig (some "0") = 3 ∧
      batchSizeConfig (some "0") = 1000 ∧
      ∀ v : Option String, maxParallelConfig v ≠ 0 :=
  config_defaults_on_falsy_parse (some "0")
    (Or.inr (Or.inr (by decide)))

theorem verifyLoop_spec (env : Env) (cs : List String) :
    (∀ c ∈ cs, Event.spawn (countCmd c) ∈ verifyLoop env cs ∧
        (env.verifyOk c = true →
          Event.verifyCountLog c ∈ verifyLoop env cs) ∧
        (env.verifyOk c = false →
          Event.verifyWarnLog c ∈ verifyLoop env cs)) ∧
      (∀ e ∈ verifyLoop env cs, ∃ c ∈ cs,
        e = Event.spawn (countCmd c) ∨ e = Event.verifyCountLog c ∨
          e = Event.verifyWarnLog c) := by
  induction cs with
  | nil => exact ⟨fun c hc => absurd hc (List.not_mem_nil c), fun e he => absurd he (List.not_mem_nil e)⟩
  | cons c0 rest ih =>
    constructor
    · intro c hc
      rcases List.mem_cons.mp hc with hc | hc
      · subst hc
        refine ⟨?_, ?_, ?_⟩
        · simp [verifyLoop]
        · intro hok; simp [verifyLoop, hok]
        · intro hok; simp [verifyLoop, hok]
      · obtain ⟨m1, m2, m3⟩ := ih.1 c hc
        refine ⟨?_, fun hok => ?_, fun hok => ?_⟩
        · rw [verifyLoop]
          exact List.mem_append_right _ m1
        · rw [verifyLoop]
          exact List.mem_append_right _ (m2 hok)
        · rw [verifyLoop]
          exact List.mem_append_right _ (m3 hok)
    · intro e he
      simp only [verifyLoop, List.mem_append, List.mem_cons] at he
      rcases he with (he | he) | he
      · exact ⟨c0, List.mem_cons_self c0 rest, Or.inl he⟩
      · by_cases hok : env.verifyOk c0
        · rw [if_pos hok] at he
          simp only [List.mem_singleton] at he
          exact ⟨c0, List.mem_cons_self c0 rest, Or.inr (Or.inl he)⟩
        · rw [if_neg hok] at he
          simp only [List.mem_singleton] at he
          exact ⟨c0, List.mem_cons_self c0 rest, Or.inr (Or.inr he)⟩
      · obtain ⟨c, hc, hor⟩ := ih.2 e he
        exact ⟨c, List.mem_cons_of_mem c0 hc, hor⟩

/-- C7: the verifier runs one count-documents command per collection of
the fixed list and logs the resulting count; a count failure for a
collection produces a warning log while every remaining collection's
count still runs (for an arbitrary pattern of per-collection failures,
every collection's count command appears in the trace and the verifier
completes normally — no failure aborts it); and the only external
actions in the verifier's trace are the per-collection count commands
(read-only: it never mutates data). -/
theorem verifySpecificCollections_fail_open (env : Env) :
    (verifySpecificCollections env).2 = Ctl.normal () ∧
      (∀ c ∈ collectionsToSync,
        Event.spawn (countCmd c) ∈ (verifySpecificCollections env).1 ∧
        (env.verifyOk c = true →
          Event.verifyCountLog c ∈ (verifySpecificCollections env).1) ∧
        (env.verifyOk c = false →
          Event.verifyWarnLog c ∈ (verifySpecificCollections env).1)) ∧
      (∀ e ∈ (verifySpecificCollections env).1, e.isExternal = true →
        ∃ c ∈ collectionsToSync, e = Event.spawn (countCmd c)) := by
  refine ⟨rfl, (verifyLoop_spec env collectionsToSync).1, ?_⟩
  intro e he hext
  obtain ⟨c, hc, hor⟩ := (verifyLoop_spec env collectionsToSync).2 e he
  rcases hor with h | h | h
  · exact ⟨c, hc, h⟩
  · rw [h] at hext; cases hext
  · rw [h] at hext; cases hext

/-- Witness for C7 at a concrete input: in a run where counting `shows`
fails, the count command for the later collection `episodes` is still
issued, its count is logged, the failing collection gets a warning, and
the verifier completes normally. -/
theorem verifySpecificCollections_fail_open_witness :
    (verifySpecificCollections envVerifyMixed).2 = Ctl.normal () ∧
      Event.spawn (countCmd "episodes") ∈
        (verifySpecificCollections envVerifyMixed).1 ∧
      Event.verifyCountLog "episodes" ∈
        (verifySpecificCollections envVerifyMixed).1 ∧
      Event.verifyWarnLog "shows" ∈
        (verifySpecificCollections envVerifyMixed).1 := by
  have h := verifySpecificCollections_fail_open envVerifyMixed
  have he := h.2.1 "episodes" (by decide)
  have hs := h.2.1 "shows" (by decide)
  exact ⟨h.1, he.1, he.2.1 (by decide), hs.2.2 (by decide)⟩

theorem digitChar_eq_star (m : Nat) (h : 16 ≤ m) :
    Nat.digitChar m = '*' := by
  have e0 : m ≠ 0 := by omega
  have e1 : m ≠ 1 := by omega
  have e2 : m ≠ 2 := by omega
  have e3 : m ≠ 3 := by omega
  have e4 : m ≠ 4 := by omega
  have e5 : m ≠ 5 := by omega
  have e6 : m ≠ 6 := by omega
  have e7 : m ≠ 7 := by omega
  have e8 : m ≠ 8 := by omega
  have e9 : m ≠ 9 := by omega
  have e10 : m ≠ 10 := by omega
  have e11 : m ≠ 11 := by omega
  have e12 : m ≠ 12 := by omega
  have e13 : m ≠ 13 := by omega
  have e14 : m ≠ 14 := by omega
  have e15 : m ≠ 15 := by omega
  unfold Nat.digitChar
  simp [e0, e1, e2, e3, e4, e5, e6, e7, e8, e9, e10, e11, e12, e13,
    e14, e15]

theorem digitChar_ne_n (m : Nat) : Nat.digitChar m ≠ 'n' := by
  by_cases h : m < 16
  · interval_cases m <;> decide
  · rw [digitChar_eq_star m (by omega)]
    decide

theorem toDigitsCore_chars (b f : Nat) :
    ∀ (n : Nat) (ds : List Char) (c : Char),
      c ∈ Nat.toDigitsCore b f n ds →
        c ∈ ds ∨ ∃ m, c = Nat.digitChar m := by
  induction f with
  | zero =>
    intro n ds c h
    simp only [Nat.toDigitsCore] at h
    exact Or.inl h
  | succ f ih =>
    intro n ds c h
    simp only [Nat.toDigitsCore] at h
    by_cases hb : n / b = 0
    · rw [if_pos hb] at h
      rcases List.mem_cons.mp h with h | h
      · exact Or.inr ⟨n % b, h⟩
      · exact Or.inl h
    · rw [if_neg hb] at h
      rcases ih (n / b) (Nat.digitChar (n % b) :: ds) c h with h | h
      · rcases List.mem_cons.mp h with h | h
        · exact Or.inr ⟨n % b, h⟩
        · exact Or.inl h
      · exact Or.inr h

theorem repr_ne_null (n : Nat) : Nat.repr n ≠ "null" := by
  intro h
  have hdata : (Nat.repr n).data = ['n', 'u', 'l', 'l'] := by rw [h]
  have hmem : ('n' : Char) ∈ (Nat.repr n).data := by
    rw [hdata]; simp
  have hrw : (Nat.repr n).data = Nat.toDigitsCore 10 (n + 1) n [] := rfl
  rw [hrw] at hmem
  rcases toDigitsCore_chars 10 (n + 1) n [] 'n' hmem with h1 | ⟨m, hm⟩
  · cases h1
  · exact digitChar_ne_n m hm.symm

theorem string_append_right_inj (a b c : String)
    (h : a ++ b = a ++ c) : b = c := by
  have hd := congrArg String.data h
  simp only [String.data_append] at hd
  exact String.ext (List.append_cancel_left hd)

/-- C6: for every command whose subprocess does not exit before the
timeout, both command runners fail with an error distinguishable from
every ordinary non-zero-exit failure, and the subprocess is terminated
(killed with SIGTERM by `exec`'s timeout handling) rather than left
running: `executeCommand` rethrows the library error with
`killed = true` and no exit code, while any error from a run that exits
on its own has `killed = false` and carries its non-zero exit code;
`executeCommandWithProgress` rejects with the `null` close code in its
message, which no run that exits on its own can produce. -/
theorem commandRunner_timeout_kills_and_distinguishes
    (b : ExecBehavior) (timeoutMs : Nat) (h : timeoutMs < b.duration) :
    executeCommand b timeoutMs =
        Except.error ⟨"Command killed", true, some "SIGTERM", none⟩ ∧
      executeCommandWithProgress b timeoutMs =
        Except.error ("Command failed with exit code " ++ codeString none) ∧
      (∀ (b2 : ExecBehavior) (t2 : Nat) (e2 : JsExecError),
        b2.duration ≤ t2 → executeCommand b2 t2 = Except.error e2 →
          e2.killed = false ∧ e2.code = some b2.exitCode ∧
            b2.exitCode ≠ 0) ∧
      (∀ (b2 : ExecBehavior) (t2 : Nat) (m2 : String),
        b2.duration ≤ t2 →
          executeCommandWithProgress b2 t2 = Except.error m2 →
          m2 = "Command failed with exit code " ++
              codeString (some b2.exitCode) ∧
            m2 ≠ "Command failed with exit code " ++ codeString none) := by
  refine ⟨?_, ?_, ?_, ?_⟩
  · unfold executeCommand execSem
    rw [if_pos h]
  · unfold executeCommandWithProgress closeEvent
    rw [if_pos h]
    simp
  · intro b2 t2 e2 ht he
    have hnt : ¬ t2 < b2.duration := by omega
    unfold executeCommand execSem at he
    rw [if_neg hnt] at he
    by_cases hz : b2.exitCode = 0
    · rw [if_pos hz] at he
      cases he
    · rw [if_neg hz] at he
      simp only [Except.error.injEq] at he
      rw [← he]
      exact ⟨rfl, rfl, hz⟩
  · intro b2 t2 m2 ht he
    have hnt : ¬ t2 < b2.duration := by omega
    unfold executeCommandWithProgress closeEvent at he
    rw [if_neg hnt] at he
    simp only at he
    by_cases hz : b2.exitCode = 0
    · rw [if_pos (by rw [hz])] at he
      cases he
    · rw [if_neg (by simpa using hz)] at he
      simp only [Except.error.injEq] at he
      constructor
      · rw [← he]
      · rw [← he]
        intro hcontra
        have h2 := string_append_right_inj _ _ _ hcontra
        exact repr_ne_null b2.exitCode (by simpa [codeString] using h2)

/-- Witness for C6 at a concrete input: a subprocess that would run for
1000 ms under a 500 ms timeout. -/
theorem commandRunner_timeout_kills_and_distinguishes_witness :
    executeCommand ⟨1000, 0, "", ""⟩ 500 =
        Except.error ⟨"Command killed", true, some "SIGTERM", none⟩ ∧
      executeCommandWithProgress ⟨1000, 0, "", ""⟩ 500 =
        Except.error ("Command failed with exit code " ++ codeString none) ∧
      (∀ (b2 : ExecBehavior) (t2 : Nat) (e2 : JsExecError),
        b2.duration ≤ t2 → executeCommand b2 t2 = Except.error e2 →
          e2.killed = false ∧ e2.code = some b2.exitCode ∧
            b2.exitCode ≠ 0) ∧
      (∀ (b2 : ExecBehavior) (t2 : Nat) (m2 : String),
        b2.duration ≤ t2 →
          executeCommandWithProgress b2 t2 = Except.error m2 →
          m2 = "Command failed with exit code " ++
              codeString (some b2.exitCode) ∧
            m2 ≠ "Command failed with exit code " ++ codeString none) :=
  commandRunner_timeout_kills_and_distinguishes ⟨1000, 0, "", ""⟩ 500
    (by decide)

/-- C5: when `REMOTE_URI` or `LOCAL_URI` is unset, the run exits with
process exit code 1, its entire output is the single log naming exactly
the missing variables (`REMOTE_URI` is listed iff `REMOTE_URI` is
falsy, likewise `LOCAL_URI`), and no subprocess invocation and no
database call happens before exiting (no event of the run is
external). -/
theorem main_missing_uri_exits_one (env : Env)
    (h : env.remoteUri = none ∨ env.localUri = none) :
    (main env).2 = 1 ∧
      (main env).1 = [Event.logMissingVars (missingVarsList env)] ∧
      ("REMOTE_URI" ∈ missingVarsList env ↔ falsyStr env.remoteUri = true) ∧
      ("LOCAL_URI" ∈ missingVarsList env ↔ falsyStr env.localUri = true) ∧
      (∀ e ∈ (main env).1, e.isExternal = false) := by
  have hmiss : 0 < (missingVarsList env).length := by
    rcases h with h | h
    · unfold missingVarsList
      rw [h]
      simp [falsyStr]
    · unfold missingVarsList
      rw [h]
      simp only [falsyStr, if_true]
      rw [List.length_append]
      simp
  have hval : validateConfig env =
      ([Event.logMissingVars (missingVarsList env)], Ctl.exited 1) := by
    unfold validateConfig
    rw [if_pos hmiss]
  have hmain : main env =
      ([Event.logMissingVars (missingVarsList env)], 1) := by
    unfold main tryBody
    rw [hval]
  refine ⟨by rw [hmain], by rw [hmain], ?_, ?_, ?_⟩
  · by_cases hr : falsyStr env.remoteUri <;>
      by_cases hl : falsyStr env.localUri <;>
      simp [missingVarsList, hr, hl]
  · by_cases hr : falsyStr env.remoteUri <;>
      by_cases hl : falsyStr env.localUri <;>
      simp [missingVarsList, hr, hl]
  · rw [hmain]
    intro e he
    simp only [List.mem_singleton] at he
    rw [he]
    rfl

/-- Witness for C5 at a concrete input: a run with `REMOTE_URI` unset. -/
theorem main_missing_uri_exits_one_witness :
    (main envMissingRemote).2 = 1 ∧
      (main envMissingRemote).1 =
        [Event.logMissingVars (missingVarsList envMissingRemote)] ∧
      ("REMOTE_URI" ∈ missingVarsList envMissingRemote ↔
        falsyStr envMissingRemote.remoteUri = true) ∧
      ("LOCAL_URI" ∈ missingVarsList envMissingRemote ↔
        falsyStr envMissingRemote.localUri = true) ∧
      (∀ e ∈ (main envMissingRemote).1, e.isExternal = false) :=
  main_missing_uri_exits_one envMissingRemote (Or.inl rfl)

/-- C4: when `USE_DIRECT_TRANSFER` is true but the `mongodb` driver
module is unavailable, the direct-transfer path throws the sentinel
`"FALLBACK_TO_TRADITIONAL"` — a condition distinct from the error an
ordinary direct-transfer failure throws — and `main` then logs the
fallback notice and completes the sync through the export/import path
(one `mongodump` and one `mongorestore --drop` per collection), exiting
with code 0. -/
theorem main_driver_missing_falls_back (env : Env) (r l s t : String)
    (h1 : env.remoteUri = some r) (h2 : r ≠ "")
    (h3 : env.localUri = some l) (h4 : l ≠ "")
    (h5 : env.parseDbName r = some s) (h6 : env.parseDbName l = some t)
    (h7 : env.useDirectTransfer = true)
    (h8 : env.driverAvailable = false)
    (h9 : env.dumpOk = true) (h10 : env.restoreOk = true) :
    (directDatabaseTransfer env).2 = Ctl.thrown "FALLBACK_TO_TRADITIONAL" ∧
      (∀ env2 : Env, env2.driverAvailable = true → env2.directOk = false →
        (directDatabaseTransfer env2).2 =
            Ctl.thrown "DIRECT_TRANSFER_ERROR" ∧
          Ctl.thrown (α := Unit) "DIRECT_TRANSFER_ERROR" ≠
            Ctl.thrown "FALLBACK_TO_TRADITIONAL") ∧
      (main env).2 = 0 ∧
      Event.fallbackNotice ∈ (main env).1 ∧
      (∀ c ∈ collectionsToSync,
        Event.spawn ("mongodump --collection=" ++ c) ∈ (main env).1 ∧
        Event.spawn ("mongorestore --drop --collection=" ++ c) ∈
          (main env).1) := by
  have hfr : falsyStr env.remoteUri = false := by
    rw [h1]; simp [falsyStr, h2]
  have hfl : falsyStr env.localUri = false := by
    rw [h3]; simp [falsyStr, h4]
  have hmv : missingVarsList env = [] := by
    unfold missingVarsList
    rw [hfr, hfl]
    simp
  have hval : validateConfig env =
      ([Event.configValidated s t], Ctl.normal (s, t)) := by
    unfold validateConfig
    rw [hmv, h1, h3]
    simp only [uriStr, List.length_nil]
    rw [if_neg (by omega), h5, h6]
  have hdir : directDatabaseTransfer env =
      ([Event.directStart, Event.moduleNotFoundNotice],
        Ctl.thrown "FALLBACK_TO_TRADITIONAL") := by
    unfold directDatabaseTransfer
    rw [h8]
    simp
  have htrad : runTraditional env =
      (Event.setupTempDir :: (dumpEvents collectionsToSync ++
        restoreEvents collectionsToSync), Ctl.normal ()) := by
    unfold runTraditional dumpPhase restorePhase
    rw [h9, h10]
    simp
  have htb : tryBody env =
      ⟨(([Event.configValidated s t] ++
          [Event.directStart, Event.moduleNotFoundNotice] ++
          [Event.fallbackNotice]) ++
        (Event.setupTempDir :: (dumpEvents collectionsToSync ++
          restoreEvents collectionsToSync))) ++ verifyStage env ++
        [Event.doneLog], Ctl.normal (), true⟩ := by
    unfold tryBody
    rw [hval]
    dsimp only
    rw [h7]
    simp only [if_true]
    rw [hdir]
    dsimp only
    rw [if_pos rfl]
    unfold traditionalThen
    rw [htrad]
    dsimp only
    unfold afterTransfer
    simp [List.append_assoc]
  have hmain : main env =
      (((([Event.configValidated s t] ++
            [Event.directStart, Event.moduleNotFoundNotice] ++
            [Event.fallbackNotice]) ++
          (Event.setupTempDir :: (dumpEvents collectionsToSync ++
            restoreEvents collectionsToSync))) ++ verifyStage env ++
          [Event.doneLog] ++ cleanupTempDirectory env) ++
        [Event.doneLog], 0) := by
    unfold main
    rw [htb]
    simp [List.append_assoc]
  refine ⟨by rw [hdir], ?_, by rw [hmain], ?_, ?_⟩
  · intro env2 ha hb
    constructor
    · unfold directDatabaseTransfer
      rw [ha, hb]
      simp
    · decide
  · rw [hmain]
    simp
  · intro c hc
    have hd : Event.spawn ("mongodump --collection=" ++ c) ∈
        dumpEvents collectionsToSync := List.mem_map_of_mem _ hc
    have hre : Event.spawn ("mongorestore --drop --collection=" ++ c) ∈
        restoreEvents collectionsToSync := List.mem_map_of_mem _ hc
    rw [hmain]
    constructor
    · simp only [List.mem_append, List.mem_cons]
      tauto
    · simp only [List.mem_append, List.mem_cons]
      tauto

/-- Witness for C4 at a concrete input: `envNoDriver`
(`USE_DIRECT_TRANSFER=true`, driver missing, healthy dump/restore). -/
theorem main_driver_missing_falls_back_witness :
    (directDatabaseTransfer envNoDriver).2 =
        Ctl.thrown "FALLBACK_TO_TRADITIONAL" ∧
      (∀ env2 : Env, env2.driverAvailable = true → env2.directOk = false →
        (directDatabaseTransfer env2).2 =
            Ctl.thrown "DIRECT_TRANSFER_ERROR" ∧
          Ctl.thrown (α := Unit) "DIRECT_TRANSFER_ERROR" ≠
            Ctl.thrown "FALLBACK_TO_TRADITIONAL") ∧
      (main envNoDriver).2 = 0 ∧
      Event.fallbackNotice ∈ (main envNoDriver).1 ∧
      (∀ c ∈ collectionsToSync,
        Event.spawn ("mongodump --collection=" ++ c) ∈
            (main envNoDriver).1 ∧
        Event.spawn ("mongorestore --drop --collection=" ++ c) ∈
          (main envNoDriver).1) :=
  main_driver_missing_falls_back envNoDriver
    "mongodb://remote:27017/sourcedb" "mongodb://localhost:27017/targetdb"
    "mongodb://remote:27017/sourcedb" "mongodb://localhost:27017/targetdb"
    rfl (by decide) rfl (by decide) rfl rfl rfl rfl rfl rfl

/-- C2 (evaluation at the failing input): in a run whose dump phase
fails after the temp directory was set up, the `catch` block's
`process.exit(1)` terminates the process before `finally`, so
`cleanupTempDirectory` never runs and the process exits with code 1
leaving the temp directory behind — the cleanup step does NOT run on
this failure exit path.  By contrast, on the successful path cleanup
does run, and a failure inside cleanup itself is only logged as a
warning (the run still exits 0). -/
theorem main_failure_path_skips_cleanup :
    (main envDumpFails).2 = 1 ∧
      Event.setupTempDir ∈ (main envDumpFails).1 ∧
      Event.errorLog "DUMP_FAILED" ∈ (main envDumpFails).1 ∧
      Event.cleanupStart ∉ (main envDumpFails).1 ∧
      (main envBase).2 = 0 ∧
      Event.cleanupStart ∈ (main envBase).1 ∧
      (main envCleanupFails).2 = 0 ∧
      Event.cleanupStart ∈ (main envCleanupFails).1 ∧
      Event.cleanupWarnLog ∈ (main envCleanupFails).1 := by
  decide

end SyncScript
